import Mathlib

/-
  Verification of the setools3 Rule Difference Engine (libpoldiff) against
  its specification.

  The repository provides the public header
  src/libpoldiff/include/poldiff/rule_diff.h, which declares the av-rule and
  te-rule difference interface (forms, accessors, stats, vectors, rendering).
  The implementing C translation units are not part of the source tree, so the
  engine itself is modelled from the specification document (sections 3, 4.3,
  4.4, 4.5, 4.6, 4.7, 6 and 7) and from the contracts stated in the doc
  comments of rule_diff.h.  Each modelled definition says so in its doc
  comment.

  Design of the embedding:
  * permission sets are Finset String (spec section 3: unique, unordered);
  * a per-policy key index is an association list from RuleKey to its value
    (permission set for av rules, default type for te rules);
  * the differ walks the deduplicated, sorted union of the two key sets and
    classifies every key into one of the five difference forms, or drops it
    as unchanged (spec section 4.3);
  * stats are a single-pass tally in the fixed order
    [ADDED, REMOVED, MODIFIED, ADD_TYPE, REMOVE_TYPE] (spec section 4.6 and
    the doc comment of poldiff_avrule_get_stats);
  * C error signalling (NULL returns plus an errno-style indicator) is
    modelled by Option results paired with a Bool error flag.
-/

namespace SETools

/-- Rule kinds handled by the engine, from rule_diff.h: av rules are allow,
neverallow, auditallow and dontaudit; te rules are type_transition,
type_change and type_member. -/
inductive RuleKind where
  | allow
  | neverallow
  | auditallow
  | dontaudit
  | type_transition
  | type_change
  | type_member
deriving DecidableEq

/-- Numeric code of a rule kind, used for the deterministic output ordering
of spec section 4.3 (records sorted first by rule kind). -/
def RuleKind.code : RuleKind → Nat
  | .allow => 0
  | .neverallow => 1
  | .auditallow => 2
  | .dontaudit => 3
  | .type_transition => 4
  | .type_change => 5
  | .type_member => 6

/-- The comparison identity of a rule across the two policies, from spec
section 3: rule kind, source type, target type and object class. -/
structure RuleKey where
  rule_kind : RuleKind
  source_type : String
  target_type : String
  object_class : String
deriving DecidableEq

/-- The difference forms POLDIFF_FORM_* of rule_diff.h.  NONE is the sentinel
for no difference or an invalid handle (spec section 3) and never appears in
a populated record. -/
inductive PoldiffForm where
  | NONE
  | ADDED
  | REMOVED
  | MODIFIED
  | ADD_TYPE
  | REMOVE_TYPE
deriving DecidableEq

/-- Case-sensitive lexicographic (strcmp-style) order on character lists,
comparing code points; this is the string order of spec section 4.3 used for
the deterministic output ordering. -/
def strle : List Char → List Char → Bool
  | [], _ => true
  | _ :: _, [] => false
  | c :: cs, d :: ds =>
      if c.toNat < d.toNat then true
      else if d.toNat < c.toNat then false
      else strle cs ds

/-- Boolean order on naturals, used to compare rule-kind codes. -/
def natle (a b : Nat) : Bool :=
  decide (a ≤ b)

/-- Lexicographic composition of two Boolean orders on a pair: compare the
first components, fall through to the second order on a tie. -/
def lex2 {β γ : Type} [DecidableEq β] (leb : β → β → Bool) (lec : γ → γ → Bool)
    (x y : β × γ) : Bool :=
  if x.1 = y.1 then lec x.2 y.2 else leb x.1 y.1

/-- The sort fields of a rule key, in the comparison order of spec section
4.3: rule kind first, then source type, target type and object class. -/
def key_tuple (k : RuleKey) : Nat × (List Char × (List Char × List Char)) :=
  (k.rule_kind.code, (k.source_type.data, (k.target_type.data, k.object_class.data)))

/-- Total order on rule keys from spec section 4.3: records are sorted by
(rule_kind, source_type, target_type, object_class) under case-sensitive
lexicographic string order. -/
def key_le (x y : RuleKey) : Bool :=
  lex2 natle (lex2 strle (lex2 strle strle)) (key_tuple x) (key_tuple y)

/-- Modelled from the spec: the Differ classification algorithm of section
4.3 (the implementing C file of rule_diff.h is not in the source tree).
Given the value associated with a key in the original index, the value in
the modified index, and whether the syntactic source rule of the key exists
in both policies, produce the difference form; NONE means no record is
emitted (key unchanged, or key in neither index). -/
def classify_key {α : Type} [DecidableEq α] (a b : Option α) (syn_in_both : Bool) : PoldiffForm :=
  match a, b with
  | Option.none, Option.none => PoldiffForm.NONE
  | Option.none, Option.some _ =>
      if syn_in_both then PoldiffForm.ADD_TYPE else PoldiffForm.ADDED
  | Option.some _, Option.none =>
      if syn_in_both then PoldiffForm.REMOVE_TYPE else PoldiffForm.REMOVED
  | Option.some va, Option.some vb =>
      if va = vb then PoldiffForm.NONE else PoldiffForm.MODIFIED

/-- An av-rule difference record (struct poldiff_avrule of rule_diff.h;
fields per spec section 3 and the accessors of the header). -/
structure poldiff_avrule where
  key : RuleKey
  form : PoldiffForm
  unmodified_perms : Finset String
  added_perms : Finset String
  removed_perms : Finset String
deriving DecidableEq

/-- A te-rule difference record (struct poldiff_terule of rule_diff.h;
fields per spec section 3 and the accessors of the header). -/
structure poldiff_terule where
  key : RuleKey
  form : PoldiffForm
  original_default : Option String
  modified_default : Option String
deriving DecidableEq

/-- Modelled from the spec: av-record emission for one key, sections 4.3 and
4.4 plus the invariant of section 3 (the implementing C file is not in the
source tree).  For a key only in the modified index the full permission set
goes to unmodified_perms and the deltas are empty; symmetrically for a key
only in the original index; for a key in both with differing sets the record
is MODIFIED with added = permsB minus permsA, removed = permsA minus permsB,
unmodified = the intersection; equal sets emit nothing. -/
def av_make_record (k : RuleKey) (a b : Option (Finset String)) (syn_in_both : Bool) :
    Option poldiff_avrule :=
  match a, b with
  | Option.none, Option.none => Option.none
  | Option.none, Option.some pB =>
      Option.some
        { key := k
          form := if syn_in_both then PoldiffForm.ADD_TYPE else PoldiffForm.ADDED
          unmodified_perms := pB
          added_perms := ∅
          removed_perms := ∅ }
  | Option.some pA, Option.none =>
      Option.some
        { key := k
          form := if syn_in_both then PoldiffForm.REMOVE_TYPE else PoldiffForm.REMOVED
          unmodified_perms := pA
          added_perms := ∅
          removed_perms := ∅ }
  | Option.some pA, Option.some pB =>
      if pA = pB then Option.none
      else
        Option.some
          { key := k
            form := PoldiffForm.MODIFIED
            unmodified_perms := pA ∩ pB
            added_perms := pB \ pA
            removed_perms := pA \ pB }

/-- Modelled from the spec: te-record emission for one key, sections 4.3 and
4.5 plus the invariant of section 3 (the implementing C file is not in the
source tree).  The original default is carried exactly when the key was in
the original index, the modified default exactly when it was in the modified
index; equal defaults emit nothing. -/
def te_make_record (k : RuleKey) (a b : Option String) (syn_in_both : Bool) :
    Option poldiff_terule :=
  match a, b with
  | Option.none, Option.none => Option.none
  | Option.none, Option.some db =>
      Option.some
        { key := k
          form := if syn_in_both then PoldiffForm.ADD_TYPE else PoldiffForm.ADDED
          original_default := Option.none
          modified_default := Option.some db }
  | Option.some da, Option.none =>
      Option.some
        { key := k
          form := if syn_in_both then PoldiffForm.REMOVE_TYPE else PoldiffForm.REMOVED
          original_default := Option.some da
          modified_default := Option.none }
  | Option.some da, Option.some db =>
      if da = db then Option.none
      else
        Option.some
          { key := k
            form := PoldiffForm.MODIFIED
            original_default := Option.some da
            modified_default := Option.some db }

/-- Modelled from the spec: the av-rule Differ, section 4.3 (the implementing
C file is not in the source tree).  The two key indices are association
lists; the differ walks the deduplicated union of their key sets in the
deterministic key order and emits one record per changed key. -/
def run_av_diff (indexA indexB : List (RuleKey × Finset String))
    (syn_in_both : RuleKey → Bool) : List poldiff_avrule :=
  (((indexA.map Prod.fst) ++ (indexB.map Prod.fst)).dedup.mergeSort key_le).filterMap
    (fun k => av_make_record k (indexA.lookup k) (indexB.lookup k) (syn_in_both k))

/-- Modelled from the spec: the te-rule Differ, section 4.3 (the implementing
C file is not in the source tree). -/
def run_te_diff (indexA indexB : List (RuleKey × String))
    (syn_in_both : RuleKey → Bool) : List poldiff_terule :=
  (((indexA.map Prod.fst) ++ (indexB.map Prod.fst)).dedup.mergeSort key_le).filterMap
    (fun k => te_make_record k (indexA.lookup k) (indexB.lookup k) (syn_in_both k))

/-- The diff-session context (struct poldiff of poldiff.h) restricted to the
rule categories covered here: it owns the produced record lists. -/
structure poldiff where
  avrules : List poldiff_avrule
  terules : List poldiff_terule
deriving DecidableEq

/-- Modelled from the spec: building a diff session, sections 2 and 4.3 (the
implementing C file is not in the source tree).  Both categories are
computed in one batch from the four key indices and the syntactic-rule
predicate. -/
def poldiff_run (avA avB : List (RuleKey × Finset String))
    (teA teB : List (RuleKey × String)) (syn_in_both : RuleKey → Bool) : poldiff :=
  { avrules := run_av_diff avA avB syn_in_both
    terules := run_te_diff teA teB syn_in_both }

/-- Accumulator for the single-pass stats tally, in the fixed array order
[ADDED, REMOVED, MODIFIED, ADD_TYPE, REMOVE_TYPE] of rule_diff.h. -/
def stats_step (acc : Nat × Nat × Nat × Nat × Nat) (f : PoldiffForm) :
    Nat × Nat × Nat × Nat × Nat :=
  match f with
  | PoldiffForm.NONE => acc
  | PoldiffForm.ADDED => (acc.1 + 1, acc.2.1, acc.2.2.1, acc.2.2.2.1, acc.2.2.2.2)
  | PoldiffForm.REMOVED => (acc.1, acc.2.1 + 1, acc.2.2.1, acc.2.2.2.1, acc.2.2.2.2)
  | PoldiffForm.MODIFIED => (acc.1, acc.2.1, acc.2.2.1 + 1, acc.2.2.2.1, acc.2.2.2.2)
  | PoldiffForm.ADD_TYPE => (acc.1, acc.2.1, acc.2.2.1, acc.2.2.2.1 + 1, acc.2.2.2.2)
  | PoldiffForm.REMOVE_TYPE => (acc.1, acc.2.1, acc.2.2.1, acc.2.2.2.1, acc.2.2.2.2 + 1)

/-- Number of occurrences of a given form in a list of forms. -/
def form_count (f : PoldiffForm) (fs : List PoldiffForm) : Nat :=
  fs.countP (fun g => decide (g = f))

/-- Modelled from the spec: the single-pass tally of section 4.6 over a list
of record forms, producing the five counts in the fixed array order. -/
def form_stats (fs : List PoldiffForm) : List Nat :=
  let t := fs.foldl stats_step (0, 0, 0, 0, 0)
  [t.1, t.2.1, t.2.2.1, t.2.2.2.1, t.2.2.2.2]

/-- poldiff_avrule_get_stats of rule_diff.h: the five per-form counts for av
rules, written in the order ADDED, REMOVED, MODIFIED, ADD_TYPE, REMOVE_TYPE.
Modelled from the spec: section 4.6 and the header doc comment (the
implementing C file is not in the source tree); the caller-supplied array is
modelled as the returned five-element list. -/
def poldiff_avrule_get_stats (d : poldiff) : List Nat :=
  form_stats (d.avrules.map poldiff_avrule.form)

/-- poldiff_terule_get_stats of rule_diff.h, the te-rule analogue. -/
def poldiff_terule_get_stats (d : poldiff) : List Nat :=
  form_stats (d.terules.map poldiff_terule.form)

/-- poldiff_get_avrule_vector of rule_diff.h: the vector of av-rule records
owned by the session. -/
def poldiff_get_avrule_vector (d : poldiff) : List poldiff_avrule :=
  d.avrules

/-- poldiff_get_terule_vector of rule_diff.h: the vector of te-rule records
owned by the session. -/
def poldiff_get_terule_vector (d : poldiff) : List poldiff_terule :=
  d.terules

/-- A permission set listed in a stable sorted order (spec section 3:
permission sets are unordered for comparison but rendered in a stable
sorted order). -/
def sort_strings (s : Finset String) : List String :=
  s.sort (· ≤ ·)

/-- Keyword of a rule kind, as printed by apol_rule_type_to_str (referenced
from rule_diff.h). -/
def RuleKind.keyword : RuleKind → String
  | .allow => "allow"
  | .neverallow => "neverallow"
  | .auditallow => "auditallow"
  | .dontaudit => "dontaudit"
  | .type_transition => "type_transition"
  | .type_change => "type_change"
  | .type_member => "type_member"

/-- Render a space-separated word list with a fixed per-word marker. -/
def render_words (marker : String) (ws : List String) : String :=
  ws.foldl (fun acc w => acc ++ " " ++ marker ++ w) ""

/-- Modelled from the spec: the Renderer of section 4.7 for an av record
(the implementing C file is not in the source tree).  Renders the rule kind
keyword, source type, target type and object class, then the permission
list in stable sorted order with each permission annotated by its delta
role: plain for unmodified, a plus marker for added, a minus marker for
removed. -/
def avrule_render (r : poldiff_avrule) : String :=
  RuleKind.keyword r.key.rule_kind ++ " " ++ r.key.source_type ++ " " ++
    r.key.target_type ++ " : " ++ r.key.object_class ++
    render_words ("") (sort_strings r.unmodified_perms) ++
    render_words ("+") (sort_strings r.added_perms) ++
    render_words ("-") (sort_strings r.removed_perms)

/-- Modelled from the spec: the Renderer of section 4.7 for a te record (the
implementing C file is not in the source tree).  Renders the key, then the
original and modified default types, showing both when the form is MODIFIED
and only the applicable one otherwise. -/
def terule_render (r : poldiff_terule) : String :=
  RuleKind.keyword r.key.rule_kind ++ " " ++ r.key.source_type ++ " " ++
    r.key.target_type ++ " : " ++ r.key.object_class ++
    (match r.original_default with
     | Option.some d => " " ++ d
     | Option.none => "") ++
    (match r.modified_default with
     | Option.some d => " +" ++ d
     | Option.none => "")

/-- A record handle as passed through the const-void-pointer accessor
interface of rule_diff.h: it may reference a record of either category. -/
inductive poldiff_item where
  | av_item (r : poldiff_avrule)
  | te_item (r : poldiff_terule)
deriving DecidableEq

/-- poldiff_avrule_to_string of rule_diff.h.  Modelled from the spec:
sections 6 and 7 and the header doc comment (the implementing C file is not
in the source tree).  A NULL session or handle is the Option.none argument;
the result pairs the returned string (Option.none models a NULL return) with
the error indicator (true models errno being set).  The function is total:
no misuse terminates the process. -/
def poldiff_avrule_to_string (d : Option poldiff) (item : Option poldiff_item) :
    Option String × Bool :=
  match d, item with
  | Option.some _, Option.some (poldiff_item.av_item r) => (Option.some (avrule_render r), false)
  | _, _ => (Option.none, true)

/-- poldiff_terule_to_string of rule_diff.h, modelled like
poldiff_avrule_to_string. -/
def poldiff_terule_to_string (d : Option poldiff) (item : Option poldiff_item) :
    Option String × Bool :=
  match d, item with
  | Option.some _, Option.some (poldiff_item.te_item r) => (Option.some (terule_render r), false)
  | _, _ => (Option.none, true)

/-- poldiff_avrule_get_form of rule_diff.h.  Modelled from the spec:
sections 6 and 7 and the header doc comment (the implementing C file is not
in the source tree).  On a NULL or wrong-category handle it returns the
sentinel POLDIFF_FORM_NONE and sets the error indicator. -/
def poldiff_avrule_get_form (item : Option poldiff_item) : PoldiffForm × Bool :=
  match item with
  | Option.some (poldiff_item.av_item r) => (r.form, false)
  | _ => (PoldiffForm.NONE, true)

/-- poldiff_terule_get_form of rule_diff.h, modelled like
poldiff_avrule_get_form. -/
def poldiff_terule_get_form (item : Option poldiff_item) : PoldiffForm × Bool :=
  match item with
  | Option.some (poldiff_item.te_item r) => (r.form, false)
  | _ => (PoldiffForm.NONE, true)

/-- poldiff_avrule_get_unmodified_perms of rule_diff.h.  Modelled from the
header doc comment (the implementing C file is not in the source tree): for
a valid record it returns the permission vector, of size 0 when the class is
empty; Option.none would model a NULL return and is never produced. -/
def poldiff_avrule_get_unmodified_perms (r : poldiff_avrule) : Option (List String) :=
  Option.some (sort_strings r.unmodified_perms)

/-- poldiff_avrule_get_added_perms of rule_diff.h, modelled like
poldiff_avrule_get_unmodified_perms. -/
def poldiff_avrule_get_added_perms (r : poldiff_avrule) : Option (List String) :=
  Option.some (sort_strings r.added_perms)

/-- poldiff_avrule_get_removed_perms of rule_diff.h, modelled like
poldiff_avrule_get_unmodified_perms. -/
def poldiff_avrule_get_removed_perms (r : poldiff_avrule) : Option (List String) :=
  Option.some (sort_strings r.removed_perms)

/-- poldiff_terule_get_original_default of rule_diff.h: the original default
type of a te record, NULL (Option.none) when absent. -/
def poldiff_terule_get_original_default (r : poldiff_terule) : Option String :=
  r.original_default

/-- poldiff_terule_get_modified_default of rule_diff.h: the modified default
type of a te record, NULL (Option.none) when absent. -/
def poldiff_terule_get_modified_default (r : poldiff_terule) : Option String :=
  r.modified_default

/-- The C call poldiff_avrule_get_stats(diff, stats) modelled with its
caller-visible state: the session and the caller-supplied array (a function
from index to contents).  Modelled from the header doc comment and spec
section 4.6 (the implementing C file is not in the source tree): the call
writes the five counts into indices 0 through 4, leaves every other array
cell untouched, returns the session unchanged, and returns void, so the
result carries no failure component. -/
def poldiff_avrule_get_stats_write (d : poldiff) (stats : Nat → Nat) :
    poldiff × (Nat → Nat) :=
  (d, fun i => if i < 5 then (poldiff_avrule_get_stats d).getD i 0 else stats i)

/-- The C call poldiff_terule_get_stats(diff, stats) modelled like
poldiff_avrule_get_stats_write. -/
def poldiff_terule_get_stats_write (d : poldiff) (stats : Nat → Nat) :
    poldiff × (Nat → Nat) :=
  (d, fun i => if i < 5 then (poldiff_terule_get_stats d).getD i 0 else stats i)

/-- Sample av-rule key used in concrete instantiations. -/
def sample_key : RuleKey :=
  { rule_kind := RuleKind.allow
    source_type := "t1"
    target_type := "t2"
    object_class := "file" }

/-- Sample te-rule key used in concrete instantiations. -/
def sample_te_key : RuleKey :=
  { rule_kind := RuleKind.type_transition
    source_type := "t1"
    target_type := "t2"
    object_class := "process" }

/-- The av record emitted for sample_key when the original permission set is
the pair read and write and the modified permission set is read alone. -/
def sample_av_modified : poldiff_avrule :=
  { key := sample_key
    form := PoldiffForm.MODIFIED
    unmodified_perms := {"read"}
    added_perms := ∅
    removed_perms := {"write"} }

/-- The av record emitted for sample_key when the rule exists only in the
modified policy with permission set read. -/
def sample_av_added : poldiff_avrule :=
  { key := sample_key
    form := PoldiffForm.ADDED
    unmodified_perms := {"read"}
    added_perms := ∅
    removed_perms := ∅ }

/-- The te record emitted for sample_te_key when the rule, with default type
t3, exists only in the original policy. -/
def sample_te_removed : poldiff_terule :=
  { key := sample_te_key
    form := PoldiffForm.REMOVED
    original_default := Option.some ("t3")
    modified_default := Option.none }

/-! Helper lemmas about the string and key orders. -/

/-- Unfolding lemma for strle on two nonempty lists. -/
theorem strle_cons (x y : Char) (xs ys : List Char) :
    strle (x :: xs) (y :: ys) = true ↔
      (x.toNat < y.toNat ∨ (x.toNat = y.toNat ∧ strle xs ys = true)) := by
  by_cases h1 : x.toNat < y.toNat
  · simp [strle, h1]
  · by_cases h2 : y.toNat < x.toNat
    · simp [strle, h1, h2]
      omega
    · have he : x.toNat = y.toNat := by omega
      simp [strle, h1, h2, he]

/-- The string order is transitive. -/
theorem strle_trans : ∀ a b c : List Char,
    strle a b = true → strle b c = true → strle a c = true
  | [], _, _, _, _ => rfl
  | _ :: _, [], _, h1, _ => by simp [strle] at h1
  | _ :: _, _ :: _, [], _, h2 => by simp [strle] at h2
  | x :: xs, y :: ys, z :: zs, h1, h2 => by
      rw [strle_cons] at h1 h2 ⊢
      rcases h1 with h1 | ⟨h1e, h1r⟩
      · rcases h2 with h2 | ⟨h2e, h2r⟩
        · exact Or.inl (by omega)
        · exact Or.inl (by omega)
      · rcases h2 with h2 | ⟨h2e, h2r⟩
        · exact Or.inl (by omega)
        · exact Or.inr ⟨by omega, strle_trans xs ys zs h1r h2r⟩

/-- The string order is total. -/
theorem strle_total : ∀ a b : List Char, strle a b = true ∨ strle b a = true
  | [], _ => Or.inl rfl
  | _ :: _, [] => Or.inr rfl
  | x :: xs, y :: ys => by
      rcases Nat.lt_trichotomy x.toNat y.toNat with h | h | h
      · exact Or.inl ((strle_cons x y xs ys).mpr (Or.inl h))
      · rcases strle_total xs ys with hr | hr
        · exact Or.inl ((strle_cons x y xs ys).mpr (Or.inr ⟨h, hr⟩))
        · exact Or.inr ((strle_cons y x ys xs).mpr (Or.inr ⟨h.symm, hr⟩))
      · exact Or.inr ((strle_cons y x ys xs).mpr (Or.inl h))

/-- The string order is antisymmetric. -/
theorem strle_antisymm : ∀ a b : List Char,
    strle a b = true → strle b a = true → a = b
  | [], [], _, _ => rfl
  | [], _ :: _, _, h2 => by simp [strle] at h2
  | _ :: _, [], h1, _ => by simp [strle] at h1
  | x :: xs, y :: ys, h1, h2 => by
      rw [strle_cons] at h1 h2
      rcases h1 with h1 | ⟨h1e, h1r⟩ <;> rcases h2 with h2 | ⟨h2e, h2r⟩
      · omega
      · omega
      · omega
      · have hv : x.val = y.val := UInt32.ext h1e
        have hxy : x = y := Char.ext hv
        rw [hxy, strle_antisymm xs ys h1r h2r]

/-- The rule-kind code order is transitive. -/
theorem natle_trans : ∀ u v w : Nat, natle u v = true → natle v w = true → natle u w = true := by
  intro u v w h1 h2
  simp only [natle, decide_eq_true_eq] at h1 h2 ⊢
  omega

/-- The rule-kind code order is antisymmetric. -/
theorem natle_antisymm : ∀ u v : Nat, natle u v = true → natle v u = true → u = v := by
  intro u v h1 h2
  simp only [natle, decide_eq_true_eq] at h1 h2
  omega

/-- The rule-kind code order is total. -/
theorem natle_total : ∀ u v : Nat, natle u v = true ∨ natle v u = true := by
  intro u v
  simp only [natle, decide_eq_true_eq]
  omega

/-- Lexicographic composition preserves transitivity, given antisymmetry of
the first-component order. -/
theorem lex2_trans {β γ : Type} [DecidableEq β] {leb : β → β → Bool} {lec : γ → γ → Bool}
    (hbt : ∀ u v w, leb u v = true → leb v w = true → leb u w = true)
    (hba : ∀ u v, leb u v = true → leb v u = true → u = v)
    (hct : ∀ u v w, lec u v = true → lec v w = true → lec u w = true) :
    ∀ x y z : β × γ, lex2 leb lec x y = true → lex2 leb lec y z = true →
      lex2 leb lec x z = true := by
  intro x y z h1 h2
  unfold lex2 at h1 h2 ⊢
  by_cases e1 : x.1 = y.1 <;> by_cases e2 : y.1 = z.1
  · rw [if_pos e1] at h1
    rw [if_pos e2] at h2
    rw [if_pos (e1.trans e2)]
    exact hct _ _ _ h1 h2
  · rw [if_pos e1] at h1
    rw [if_neg e2] at h2
    rw [if_neg (by rw [e1]; exact e2), e1]
    exact h2
  · rw [if_neg e1] at h1
    rw [if_pos e2] at h2
    rw [if_neg (by rw [← e2]; exact e1), ← e2]
    exact h1
  · rw [if_neg e1] at h1
    rw [if_neg e2] at h2
    by_cases e3 : x.1 = z.1
    · have h2x : leb y.1 x.1 = true := by rw [e3]; exact h2
      exact absurd (hba _ _ h1 h2x) e1
    · rw [if_neg e3]
      exact hbt _ _ _ h1 h2

/-- Lexicographic composition preserves totality. -/
theorem lex2_total {β γ : Type} [DecidableEq β] {leb : β → β → Bool} {lec : γ → γ → Bool}
    (hbt : ∀ u v, leb u v = true ∨ leb v u = true)
    (hct : ∀ u v, lec u v = true ∨ lec v u = true) :
    ∀ x y : β × γ, lex2 leb lec x y = true ∨ lex2 leb lec y x = true := by
  intro x y
  unfold lex2
  by_cases e : x.1 = y.1
  · rw [if_pos e, if_pos e.symm]
    exact hct _ _
  · rw [if_neg e, if_neg (fun h => e h.symm)]
    exact hbt _ _

/-- The key order of spec section 4.3 is transitive. -/
theorem key_le_trans : ∀ x y z : RuleKey,
    key_le x y = true → key_le y z = true → key_le x z = true := by
  intro x y z
  unfold key_le
  exact
    lex2_trans natle_trans natle_antisymm
      (lex2_trans strle_trans strle_antisymm
        (lex2_trans strle_trans strle_antisymm strle_trans))
      (key_tuple x) (key_tuple y) (key_tuple z)

/-- The key order of spec section 4.3 is total. -/
theorem key_le_total : ∀ x y : RuleKey, (key_le x y || key_le y x) = true := by
  intro x y
  rcases
    lex2_total natle_total
      (lex2_total strle_total (lex2_total strle_total strle_total))
      (key_tuple x) (key_tuple y) with h | h <;>
    simp [key_le, h]

/-! Helper lemmas about record emission. -/

/-- An emitted av record carries the key it was emitted for. -/
theorem av_make_record_key {k : RuleKey} {a b : Option (Finset String)} {s : Bool}
    {r : poldiff_avrule} (h : av_make_record k a b s = Option.some r) : r.key = k := by
  rcases a with _ | pA <;> rcases b with _ | pB <;>
    simp only [av_make_record] at h
  · exact absurd h (by simp)
  · cases s <;> simp only [Option.some.injEq] at h <;> rw [← h]
  · cases s <;> simp only [Option.some.injEq] at h <;> rw [← h]
  · by_cases he : pA = pB
    · rw [if_pos he] at h
      exact absurd h (by simp)
    · rw [if_neg he] at h
      simp only [Option.some.injEq] at h
      rw [← h]

/-- An emitted av record never carries the NONE sentinel form. -/
theorem av_make_record_form_ne {k : RuleKey} {a b : Option (Finset String)} {s : Bool}
    {r : poldiff_avrule} (h : av_make_record k a b s = Option.some r) :
    r.form ≠ PoldiffForm.NONE := by
  rcases a with _ | pA <;> rcases b with _ | pB <;>
    simp only [av_make_record] at h
  · exact absurd h (by simp)
  · cases s <;> simp only [Option.some.injEq] at h <;> rw [← h] <;> simp
  · cases s <;> simp only [Option.some.injEq] at h <;> rw [← h] <;> simp
  · by_cases he : pA = pB
    · rw [if_pos he] at h
      exact absurd h (by simp)
    · rw [if_neg he] at h
      simp only [Option.some.injEq] at h
      rw [← h]
      simp

/-- An emitted te record carries the key it was emitted for. -/
theorem te_make_record_key {k : RuleKey} {a b : Option String} {s : Bool}
    {r : poldiff_terule} (h : te_make_record k a b s = Option.some r) : r.key = k := by
  rcases a with _ | da <;> rcases b with _ | db <;>
    simp only [te_make_record] at h
  · exact absurd h (by simp)
  · cases s <;> simp only [Option.some.injEq] at h <;> rw [← h]
  · cases s <;> simp only [Option.some.injEq] at h <;> rw [← h]
  · by_cases he : da = db
    · rw [if_pos he] at h
      exact absurd h (by simp)
    · rw [if_neg he] at h
      simp only [Option.some.injEq] at h
      rw [← h]

/-- An emitted te record never carries the NONE sentinel form. -/
theorem te_make_record_form_ne {k : RuleKey} {a b : Option String} {s : Bool}
    {r : poldiff_terule} (h : te_make_record k a b s = Option.some r) :
    r.form ≠ PoldiffForm.NONE := by
  rcases a with _ | da <;> rcases b with _ | db <;>
    simp only [te_make_record] at h
  · exact absurd h (by simp)
  · cases s <;> simp only [Option.some.injEq] at h <;> rw [← h] <;> simp
  · cases s <;> simp only [Option.some.injEq] at h <;> rw [← h] <;> simp
  · by_cases he : da = db
    · rw [if_pos he] at h
      exact absurd h (by simp)
    · rw [if_neg he] at h
      simp only [Option.some.injEq] at h
      rw [← h]
      simp

/-! Helper lemmas about the stats tally. -/

/-- The single-pass fold computes, for each of the five slots, the starting
value plus the number of records of the matching form. -/
theorem foldl_stats_step : ∀ (fs : List PoldiffForm) (acc : Nat × Nat × Nat × Nat × Nat),
    fs.foldl stats_step acc =
      (acc.1 + form_count PoldiffForm.ADDED fs,
       acc.2.1 + form_count PoldiffForm.REMOVED fs,
       acc.2.2.1 + form_count PoldiffForm.MODIFIED fs,
       acc.2.2.2.1 + form_count PoldiffForm.ADD_TYPE fs,
       acc.2.2.2.2 + form_count PoldiffForm.REMOVE_TYPE fs)
  | [], acc => by simp [form_count]
  | f :: fs, acc => by
      rw [List.foldl_cons, foldl_stats_step fs]
      cases f <;>
        simp [stats_step, form_count, List.countP_cons] <;> omega

/-- form_stats lists the five per-form counts in the fixed array order. -/
theorem form_stats_eq (fs : List PoldiffForm) :
    form_stats fs =
      [form_count PoldiffForm.ADDED fs, form_count PoldiffForm.REMOVED fs,
       form_count PoldiffForm.MODIFIED fs, form_count PoldiffForm.ADD_TYPE fs,
       form_count PoldiffForm.REMOVE_TYPE fs] := by
  simp [form_stats, foldl_stats_step]

/-- On a form list free of the NONE sentinel, the five per-form counts sum
to the length of the list. -/
theorem form_count_sum (fs : List PoldiffForm) (h : ∀ f ∈ fs, f ≠ PoldiffForm.NONE) :
    form_count PoldiffForm.ADDED fs + form_count PoldiffForm.REMOVED fs +
      form_count PoldiffForm.MODIFIED fs + form_count PoldiffForm.ADD_TYPE fs +
      form_count PoldiffForm.REMOVE_TYPE fs = fs.length := by
  induction fs with
  | nil => simp [form_count]
  | cons f fs ih =>
      have hf : f ≠ PoldiffForm.NONE := h f (by simp)
      have ih2 := ih (fun g hg => h g (List.mem_cons_of_mem f hg))
      cases f
      case NONE => exact absurd rfl hf
      all_goals simp [form_count, List.countP_cons] at ih2 ⊢
      all_goals omega

/-! The claims. -/

/-- Claim C1: for every key in the union of the original and modified
indices, the differ classifies the key into exactly one of the five forms
ADDED, REMOVED, ADD_TYPE, REMOVE_TYPE, MODIFIED, or excludes it as
unchanged (form NONE, no record emitted); each form is characterised by a
condition, the conditions are mutually exclusive, and a key present in both
indices with equal values is excluded. -/
theorem classify_key_partition {α : Type} [DecidableEq α] (a b : Option α) (s : Bool)
    (hmem : a.isSome = true ∨ b.isSome = true) :
    (classify_key a b s = PoldiffForm.ADDED ↔
      (a = Option.none ∧ b.isSome = true ∧ s = false)) ∧
    (classify_key a b s = PoldiffForm.ADD_TYPE ↔
      (a = Option.none ∧ b.isSome = true ∧ s = true)) ∧
    (classify_key a b s = PoldiffForm.REMOVED ↔
      (a.isSome = true ∧ b = Option.none ∧ s = false)) ∧
    (classify_key a b s = PoldiffForm.REMOVE_TYPE ↔
      (a.isSome = true ∧ b = Option.none ∧ s = true)) ∧
    (classify_key a b s = PoldiffForm.MODIFIED ↔
      (a.isSome = true ∧ b.isSome = true ∧ a ≠ b)) ∧
    (classify_key a b s = PoldiffForm.NONE ↔ (a.isSome = true ∧ a = b)) := by
  rcases a with _ | va <;> rcases b with _ | vb
  · simp at hmem
  · cases s <;> simp [classify_key]
  · cases s <;> simp [classify_key]
  · by_cases he : va = vb
    · cases s <;> simp [classify_key, he]
    · cases s <;> simp [classify_key, he]

/-- Witness for classify_key_partition: a key in both indices whose values
differ is classified MODIFIED. -/
theorem classify_key_partition_witness :
    classify_key (Option.some 1) (Option.some 2) false = PoldiffForm.MODIFIED :=
  ((classify_key_partition (Option.some 1) (Option.some 2) false
      (Or.inl rfl)).2.2.2.2.1).mpr ⟨rfl, rfl, by decide⟩

/-- Claim C2: every MODIFIED av record emitted for a key present in both
indices satisfies added_perms = permsB minus permsA, removed_perms = permsA
minus permsB, unmodified_perms = permsA intersected with permsB; the three
sets are pairwise disjoint, unmodified union added equals permsB, and
unmodified union removed equals permsA. -/
theorem av_modified_perm_algebra (k : RuleKey) (pA pB : Finset String) (s : Bool)
    (r : poldiff_avrule)
    (h : av_make_record k (Option.some pA) (Option.some pB) s = Option.some r) :
    r.added_perms = pB \ pA ∧ r.removed_perms = pA \ pB ∧
    r.unmodified_perms = pA ∩ pB ∧
    Disjoint r.added_perms r.removed_perms ∧
    Disjoint r.added_perms r.unmodified_perms ∧
    Disjoint r.removed_perms r.unmodified_perms ∧
    r.unmodified_perms ∪ r.added_perms = pB ∧
    r.unmodified_perms ∪ r.removed_perms = pA := by
  simp only [av_make_record] at h
  by_cases he : pA = pB
  · rw [if_pos he] at h
    exact absurd h (by simp)
  · rw [if_neg he] at h
    simp only [Option.some.injEq] at h
    rw [← h]
    refine ⟨rfl, rfl, rfl, ?_, ?_, ?_, ?_, ?_⟩
    · exact disjoint_sdiff_sdiff
    · exact Finset.sdiff_disjoint.mono_right Finset.inter_subset_left
    · exact Finset.sdiff_disjoint.mono_right Finset.inter_subset_right
    · rw [Finset.union_comm, Finset.inter_comm, Finset.sdiff_union_inter]
    · rw [Finset.union_comm, Finset.sdiff_union_inter]

/-- Witness for av_modified_perm_algebra: scenario A of the spec, original
permissions read and write against modified permission read. -/
theorem av_modified_perm_algebra_witness :
    sample_av_modified.unmodified_perms ∪ sample_av_modified.removed_perms =
      ({"read", "write"} : Finset String) :=
  (av_modified_perm_algebra sample_key {"read", "write"} {"read"} false
      sample_av_modified (by decide)).2.2.2.2.2.2.2

/-- Claim C3: for every emitted te record, the original default is absent
exactly when the form is ADDED or ADD_TYPE, the modified default is absent
exactly when the form is REMOVED or REMOVE_TYPE, and a MODIFIED record
carries both defaults as unequal strings. -/
theorem te_default_optionality (k : RuleKey) (a b : Option String) (s : Bool)
    (r : poldiff_terule) (h : te_make_record k a b s = Option.some r) :
    (poldiff_terule_get_original_default r = Option.none ↔
      (r.form = PoldiffForm.ADDED ∨ r.form = PoldiffForm.ADD_TYPE)) ∧
    (poldiff_terule_get_modified_default r = Option.none ↔
      (r.form = PoldiffForm.REMOVED ∨ r.form = PoldiffForm.REMOVE_TYPE)) ∧
    (r.form = PoldiffForm.MODIFIED →
      ∃ da db : String, poldiff_terule_get_original_default r = Option.some da ∧
        poldiff_terule_get_modified_default r = Option.some db ∧ da ≠ db) := by
  rcases a with _ | da <;> rcases b with _ | db <;>
    simp only [te_make_record] at h
  · exact absurd h (by simp)
  · cases s <;> simp only [Option.some.injEq] at h <;> rw [← h] <;>
      simp [poldiff_terule_get_original_default, poldiff_terule_get_modified_default]
  · cases s <;> simp only [Option.some.injEq] at h <;> rw [← h] <;>
      simp [poldiff_terule_get_original_default, poldiff_terule_get_modified_default]
  · by_cases he : da = db
    · rw [if_pos he] at h
      exact absurd h (by simp)
    · rw [if_neg he] at h
      simp only [Option.some.injEq] at h
      rw [← h]
      exact ⟨by simp [poldiff_terule_get_original_default],
        by simp [poldiff_terule_get_modified_default],
        fun _ => ⟨da, db, rfl, rfl, he⟩⟩

/-- Witness for te_default_optionality: scenario C of the spec, a
type_transition rule removed entirely, whose modified default is absent. -/
theorem te_default_optionality_witness :
    poldiff_terule_get_modified_default sample_te_removed = Option.none :=
  (te_default_optionality sample_te_key (Option.some ("t3")) Option.none false
      sample_te_removed (by decide)).2.1.mpr (Or.inl rfl)

/-- Claim C4: for every emitted av record, added_perms and removed_perms are
non-empty only when the form is MODIFIED; a record of form ADDED or ADD_TYPE
reports the full permission set of the modified side via unmodified_perms,
and a record of form REMOVED or REMOVE_TYPE reports the full permission set
of the original side via unmodified_perms. -/
theorem av_delta_only_modified (k : RuleKey) (a b : Option (Finset String)) (s : Bool)
    (r : poldiff_avrule) (h : av_make_record k a b s = Option.some r) :
    (r.added_perms ≠ ∅ → r.form = PoldiffForm.MODIFIED) ∧
    (r.removed_perms ≠ ∅ → r.form = PoldiffForm.MODIFIED) ∧
    ((r.form = PoldiffForm.ADDED ∨ r.form = PoldiffForm.ADD_TYPE) →
      b = Option.some r.unmodified_perms ∧ r.added_perms = ∅ ∧ r.removed_perms = ∅) ∧
    ((r.form = PoldiffForm.REMOVED ∨ r.form = PoldiffForm.REMOVE_TYPE) →
      a = Option.some r.unmodified_perms ∧ r.added_perms = ∅ ∧ r.removed_perms = ∅) := by
  rcases a with _ | pA <;> rcases b with _ | pB <;>
    simp only [av_make_record] at h
  · exact absurd h (by simp)
  · cases s <;> simp only [Option.some.injEq] at h <;> rw [← h] <;> simp
  · cases s <;> simp only [Option.some.injEq] at h <;> rw [← h] <;> simp
  · by_cases he : pA = pB
    · rw [if_pos he] at h
      exact absurd h (by simp)
    · rw [if_neg he] at h
      simp only [Option.some.injEq] at h
      rw [← h]
      simp

/-- Witness for av_delta_only_modified: an av rule present only in the
modified policy is reported with its full permission set in
unmodified_perms and empty deltas. -/
theorem av_delta_only_modified_witness :
    Option.some ({"read"} : Finset String) = Option.some sample_av_added.unmodified_perms ∧
    sample_av_added.added_perms = ∅ ∧ sample_av_added.removed_perms = ∅ :=
  (av_delta_only_modified sample_key Option.none (Option.some ({"read"} : Finset String))
      false sample_av_added (by decide)).2.2.1 (Or.inl rfl)

/-- Every record produced by the av differ has a populated form. -/
theorem mem_run_av_diff_form_ne {iA iB : List (RuleKey × Finset String)}
    {sb : RuleKey → Bool} {r : poldiff_avrule} (hr : r ∈ run_av_diff iA iB sb) :
    r.form ≠ PoldiffForm.NONE := by
  unfold run_av_diff at hr
  rcases List.mem_filterMap.mp hr with ⟨k, _, hk⟩
  exact av_make_record_form_ne hk

/-- Every record produced by the te differ has a populated form. -/
theorem mem_run_te_diff_form_ne {iA iB : List (RuleKey × String)}
    {sb : RuleKey → Bool} {r : poldiff_terule} (hr : r ∈ run_te_diff iA iB sb) :
    r.form ≠ PoldiffForm.NONE := by
  unfold run_te_diff at hr
  rcases List.mem_filterMap.mp hr with ⟨k, _, hk⟩
  exact te_make_record_form_ne hk

/-- Claim C5: for every diff session built by the engine and each rule
category, get_stats returns the five per-form counts in the fixed order
[ADDED, REMOVED, MODIFIED, ADD_TYPE, REMOVE_TYPE], and their sum equals
the length of the record vector of that category. -/
theorem stats_order_and_sum (avA avB : List (RuleKey × Finset String))
    (teA teB : List (RuleKey × String)) (sb : RuleKey → Bool) :
    poldiff_avrule_get_stats (poldiff_run avA avB teA teB sb) =
      [form_count PoldiffForm.ADDED
         ((poldiff_get_avrule_vector (poldiff_run avA avB teA teB sb)).map poldiff_avrule.form),
       form_count PoldiffForm.REMOVED
         ((poldiff_get_avrule_vector (poldiff_run avA avB teA teB sb)).map poldiff_avrule.form),
       form_count PoldiffForm.MODIFIED
         ((poldiff_get_avrule_vector (poldiff_run avA avB teA teB sb)).map poldiff_avrule.form),
       form_count PoldiffForm.ADD_TYPE
         ((poldiff_get_avrule_vector (poldiff_run avA avB teA teB sb)).map poldiff_avrule.form),
       form_count PoldiffForm.REMOVE_TYPE
         ((poldiff_get_avrule_vector (poldiff_run avA avB teA teB sb)).map poldiff_avrule.form)] ∧
    (poldiff_avrule_get_stats (poldiff_run avA avB teA teB sb)).sum =
      (poldiff_get_avrule_vector (poldiff_run avA avB teA teB sb)).length ∧
    poldiff_terule_get_stats (poldiff_run avA avB teA teB sb) =
      [form_count PoldiffForm.ADDED
         ((poldiff_get_terule_vector (poldiff_run avA avB teA teB sb)).map poldiff_terule.form),
       form_count PoldiffForm.REMOVED
         ((poldiff_get_terule_vector (poldiff_run avA avB teA teB sb)).map poldiff_terule.form),
       form_count PoldiffForm.MODIFIED
         ((poldiff_get_terule_vector (poldiff_run avA avB teA teB sb)).map poldiff_terule.form),
       form_count PoldiffForm.ADD_TYPE
         ((poldiff_get_terule_vector (poldiff_run avA avB teA teB sb)).map poldiff_terule.form),
       form_count PoldiffForm.REMOVE_TYPE
         ((poldiff_get_terule_vector (poldiff_run avA avB teA teB sb)).map poldiff_terule.form)] ∧
    (poldiff_terule_get_stats (poldiff_run avA avB teA teB sb)).sum =
      (poldiff_get_terule_vector (poldiff_run avA avB teA teB sb)).length := by
  refine ⟨?_, ?_, ?_, ?_⟩
  · simp only [poldiff_avrule_get_stats, poldiff_get_avrule_vector, poldiff_run]
    rw [form_stats_eq]
  · have hne : ∀ f ∈ (run_av_diff avA avB sb).map poldiff_avrule.form,
        f ≠ PoldiffForm.NONE := by
      intro f hf
      rcases List.mem_map.mp hf with ⟨r, hr, rfl⟩
      exact mem_run_av_diff_form_ne hr
    have hsum := form_count_sum _ hne
    rw [List.length_map] at hsum
    simp only [poldiff_avrule_get_stats, poldiff_get_avrule_vector, poldiff_run]
    rw [form_stats_eq]
    simp only [List.sum_cons, List.sum_nil]
    omega
  · simp only [poldiff_terule_get_stats, poldiff_get_terule_vector, poldiff_run]
    rw [form_stats_eq]
  · have hne : ∀ f ∈ (run_te_diff teA teB sb).map poldiff_terule.form,
        f ≠ PoldiffForm.NONE := by
      intro f hf
      rcases List.mem_map.mp hf with ⟨r, hr, rfl⟩
      exact mem_run_te_diff_form_ne hr
    have hsum := form_count_sum _ hne
    rw [List.length_map] at hsum
    simp only [poldiff_terule_get_stats, poldiff_get_terule_vector, poldiff_run]
    rw [form_stats_eq]
    simp only [List.sum_cons, List.sum_nil]
    omega

/-- Claim C6: running the engine twice on identical inputs yields identical
record lists and identical rendered strings, and the records of each
category are sorted by (rule_kind, source_type, target_type, object_class)
under the case-sensitive lexicographic order. -/
theorem engine_deterministic_sorted (avA avB : List (RuleKey × Finset String))
    (teA teB : List (RuleKey × String)) (sb : RuleKey → Bool) :
    poldiff_run avA avB teA teB sb = poldiff_run avA avB teA teB sb ∧
    (run_av_diff avA avB sb).map avrule_render =
      (run_av_diff avA avB sb).map avrule_render ∧
    (run_te_diff teA teB sb).map terule_render =
      (run_te_diff teA teB sb).map terule_render ∧
    (run_av_diff avA avB sb).Pairwise (fun r1 r2 => key_le r1.key r2.key = true) ∧
    (run_te_diff teA teB sb).Pairwise (fun r1 r2 => key_le r1.key r2.key = true) := by
  refine ⟨rfl, rfl, rfl, ?_, ?_⟩
  · unfold run_av_diff
    rw [List.pairwise_filterMap]
    have hs := List.sorted_mergeSort key_le_trans key_le_total
      (((avA.map Prod.fst) ++ (avB.map Prod.fst)).dedup)
    exact hs.imp fun {k1 k2} h12 => by
      intro r1 h1 r2 h2
      rw [av_make_record_key (Option.mem_def.mp h1),
        av_make_record_key (Option.mem_def.mp h2)]
      exact h12
  · unfold run_te_diff
    rw [List.pairwise_filterMap]
    have hs := List.sorted_mergeSort key_le_trans key_le_total
      (((teA.map Prod.fst) ++ (teB.map Prod.fst)).dedup)
    exact hs.imp fun {k1 k2} h12 => by
      intro r1 h1 r2 h2
      rw [te_make_record_key (Option.mem_def.mp h1),
        te_make_record_key (Option.mem_def.mp h2)]
      exact h12

/-- Claim C7: on misuse (a NULL session, a NULL handle, or a wrong-category
record handle) the rendering accessors return NULL with the error indicator
set and the form accessors return the POLDIFF_FORM_NONE sentinel with the
error indicator set; all accessors are total functions, so no misuse
terminates the process. -/
theorem accessor_misuse_sentinel (d : Option poldiff) (item item2 : Option poldiff_item)
    (h : d = Option.none ∨ item = Option.none ∨
      (∃ t, item = Option.some (poldiff_item.te_item t)))
    (h2 : d = Option.none ∨ item2 = Option.none ∨
      (∃ a, item2 = Option.some (poldiff_item.av_item a))) :
    poldiff_avrule_to_string d item = (Option.none, true) ∧
    poldiff_terule_to_string d item2 = (Option.none, true) ∧
    ((item = Option.none ∨ (∃ t, item = Option.some (poldiff_item.te_item t))) →
      poldiff_avrule_get_form item = (PoldiffForm.NONE, true)) ∧
    ((item2 = Option.none ∨ (∃ a, item2 = Option.some (poldiff_item.av_item a))) →
      poldiff_terule_get_form item2 = (PoldiffForm.NONE, true)) := by
  refine ⟨?_, ?_, ?_, ?_⟩
  · rcases h with rfl | rfl | ⟨t, rfl⟩
    · rcases item with _ | it
      · rfl
      · rcases it with r | r <;> rfl
    · rcases d with _ | dv <;> rfl
    · rcases d with _ | dv <;> rfl
  · rcases h2 with rfl | rfl | ⟨a2, rfl⟩
    · rcases item2 with _ | it
      · rfl
      · rcases it with r | r <;> rfl
    · rcases d with _ | dv <;> rfl
    · rcases d with _ | dv <;> rfl
  · rintro (rfl | ⟨t, rfl⟩) <;> rfl
  · rintro (rfl | ⟨a2, rfl⟩) <;> rfl

/-- Witness for accessor_misuse_sentinel at the all-NULL input. -/
theorem accessor_misuse_sentinel_witness :
    poldiff_avrule_to_string Option.none Option.none = (Option.none, true) ∧
    poldiff_terule_to_string Option.none Option.none = (Option.none, true) ∧
    (((Option.none : Option poldiff_item) = Option.none ∨
        (∃ t, (Option.none : Option poldiff_item) = Option.some (poldiff_item.te_item t))) →
      poldiff_avrule_get_form Option.none = (PoldiffForm.NONE, true)) ∧
    (((Option.none : Option poldiff_item) = Option.none ∨
        (∃ a, (Option.none : Option poldiff_item) = Option.some (poldiff_item.av_item a))) →
      poldiff_terule_get_form Option.none = (PoldiffForm.NONE, true)) :=
  accessor_misuse_sentinel Option.none Option.none Option.none (Or.inl rfl) (Or.inl rfl)

/-- Claim C8: for every av record, each of the three permission accessors
returns a vector rather than NULL, and an empty permission class is
represented by a vector of size 0. -/
theorem av_perm_accessors_never_null (r : poldiff_avrule) :
    (poldiff_avrule_get_unmodified_perms r).isSome = true ∧
    (poldiff_avrule_get_added_perms r).isSome = true ∧
    (poldiff_avrule_get_removed_perms r).isSome = true ∧
    (((poldiff_avrule_get_unmodified_perms r).getD []).length = 0 ↔
      r.unmodified_perms = ∅) ∧
    (((poldiff_avrule_get_added_perms r).getD []).length = 0 ↔ r.added_perms = ∅) ∧
    (((poldiff_avrule_get_removed_perms r).getD []).length = 0 ↔ r.removed_perms = ∅) := by
  refine ⟨rfl, rfl, rfl, ?_, ?_, ?_⟩ <;>
    simp [poldiff_avrule_get_unmodified_perms, poldiff_avrule_get_added_perms,
      poldiff_avrule_get_removed_perms, sort_strings, Finset.length_sort,
      Finset.card_eq_zero]

/-- Claim C9: the stats calls write exactly the five cells 0 through 4 of
the caller-supplied array, leave every other cell and the session itself
unchanged, and their result carries no failure component. -/
theorem stats_write_frame (d : poldiff) (stats : Nat → Nat) (j i : Nat) (hi : i < 5) :
    (poldiff_avrule_get_stats_write d stats).1 = d ∧
    (poldiff_avrule_get_stats_write d stats).2 (5 + j) = stats (5 + j) ∧
    (poldiff_avrule_get_stats_write d stats).2 i =
      (poldiff_avrule_get_stats d).getD i 0 ∧
    (poldiff_terule_get_stats_write d stats).1 = d ∧
    (poldiff_terule_get_stats_write d stats).2 (5 + j) = stats (5 + j) ∧
    (poldiff_terule_get_stats_write d stats).2 i =
      (poldiff_terule_get_stats d).getD i 0 := by
  have hj : ¬(5 + j < 5) := by omega
  exact ⟨rfl, by simp [poldiff_avrule_get_stats_write, hj],
    by simp [poldiff_avrule_get_stats_write, hi], rfl,
    by simp [poldiff_terule_get_stats_write, hj],
    by simp [poldiff_terule_get_stats_write, hi]⟩

/-- Witness for stats_write_frame on the empty session, array index 2 and
offset 0 past the written region. -/
theorem stats_write_frame_witness :
    (poldiff_avrule_get_stats_write ⟨[], []⟩ (fun n => n)).1 = (⟨[], []⟩ : poldiff) ∧
    (poldiff_avrule_get_stats_write ⟨[], []⟩ (fun n => n)).2 (5 + 0) = (fun n => n) (5 + 0) ∧
    (poldiff_avrule_get_stats_write ⟨[], []⟩ (fun n => n)).2 2 =
      (poldiff_avrule_get_stats ⟨[], []⟩).getD 2 0 ∧
    (poldiff_terule_get_stats_write ⟨[], []⟩ (fun n => n)).1 = (⟨[], []⟩ : poldiff) ∧
    (poldiff_terule_get_stats_write ⟨[], []⟩ (fun n => n)).2 (5 + 0) = (fun n => n) (5 + 0) ∧
    (poldiff_terule_get_stats_write ⟨[], []⟩ (fun n => n)).2 2 =
      (poldiff_terule_get_stats ⟨[], []⟩).getD 2 0 :=
  stats_write_frame ⟨[], []⟩ (fun n => n) 0 2 (by decide)

end SETools

